import Mathlib

/-!
Verification of the Mappedin embed geometry importer
(`MappedinBlenderImporter.py`) against its natural-language specification.

The script is a single-pass pipeline over an array of JSON "shape" records:
for each record it optionally builds an extruded mesh solid (with boolean
hole subtraction and a uniform per-vertex color attribute) and optionally a
text label.  We embed the script shallowly:

* JSON numbers are modelled as rationals (`ℚ`); the special float values
  `inf` / `-inf` / `nan` that arise from `getShapeOrigin`'s initial bounds
  are modelled by the four-constructor type `EFloat` whose comparison and
  addition follow IEEE-754 semantics for the operations the script uses.
* The typed records (`ShapeRecord`, `Label`, ...) follow the input schema;
  keys that the script tests with `in` or that may be absent are `Option`
  fields, and a Python `KeyError`/`ValueError` is an explicit `PyErr`.
* Blender's data block store and scene collection are a `BState`: a fresh-id
  counter, the list of live objects (`bpy.data.objects`), the ids linked to
  the `Collection`, and a ghost trace of create/delete events used to state
  the bookkeeping claims.  Host geometry operators (solidify-apply, boolean
  difference) are treated as external collaborators and modelled freely by
  the `Solid` syntax tree, exactly recording which operator was applied to
  which arguments in which order.
* `radians` (degrees → radians, a strictly monotone injection) is modelled
  by the wrapper `Rad` that records the degree argument; `radians 0 = 0`, so
  the plain float `0` that the script uses for absent rotation keys is
  `Rad.mk 0`.
* Reading the file from disk and `json.load` are host I/O; `importJson` is
  embedded from its loop over the decoded array.  An uncaught exception
  leaves the Blender state as it was when the exception was raised, so each
  step returns the state so far together with an optional error.
-/

/-- A 2D source point, one element of a `vertexes` / hole polygon array. -/
structure Pt where
  x : ℚ
  y : ℚ
deriving DecidableEq, Repr

/-- A 3D vector of (exact) scene coordinates, as passed to `from_pydata`. -/
structure Vec3 where
  x : ℚ
  y : ℚ
  z : ℚ
deriving DecidableEq, Repr

/-- The `geometry` sub-record of a shape: position, scale (z = extrusion
depth) and the visibility flag tested by `importJson`. -/
structure Geometry where
  position : Vec3
  scale : Vec3
  visible : Bool
deriving DecidableEq, Repr

/-- The `material` sub-record: a hex color string `#RRGGBB` and an opacity. -/
structure Material where
  color : String
  opacity : ℚ
deriving DecidableEq, Repr

/-- The `position` sub-record of a label; each key is tested with `in`. -/
structure LabelPos where
  x : Option ℚ
  y : Option ℚ
  z : Option ℚ
deriving DecidableEq, Repr

/-- The `rotation` sub-record of a label (degrees); keys tested with `in`. -/
structure LabelRot where
  x : Option ℚ
  y : Option ℚ
  z : Option ℚ
deriving DecidableEq, Repr

/-- The `label` sub-record of a shape.  `visible` is optional because
`importJson` tests `'visible' in shape['label']` before reading it. -/
structure Label where
  text : String
  fontSize : ℚ
  align : String
  position : LabelPos
  rotation : LabelRot
  visible : Option Bool
deriving DecidableEq, Repr

/-- One record of the decoded JSON array.  Every key that `importJson`
guards with `in` (or that a claim needs absent) is an `Option`. -/
structure ShapeRecord where
  vertexes : Option (List Pt)
  geometry : Option Geometry
  holes : Option (List (List Pt))
  material : Option Material
  label : Option Label
deriving DecidableEq, Repr

/-- Python exceptions that the script can raise while processing a shape. -/
inductive PyErr where
  | keyError (key : String)
  | valueError
deriving DecidableEq, Repr

/-- Python float values reachable in `getShapeOrigin`: finite rationals plus
`inf`, `-inf` (the initial bounds) and `nan` (from `inf + -inf`). -/
inductive EFloat where
  | fin (q : ℚ)
  | inf
  | ninf
  | nan
deriving DecidableEq, Repr

/-- IEEE-754 `<` on the reachable values: any comparison with `nan` is
false, `-inf < q < inf` for finite `q`. -/
def EFloat.lt : EFloat → EFloat → Bool
  | .fin a, .fin b => decide (a < b)
  | .fin _, .inf => true
  | .ninf, .fin _ => true
  | .ninf, .inf => true
  | _, _ => false

/-- IEEE-754 addition on the reachable values: `nan` is absorbing and
`inf + -inf = nan`. -/
def EFloat.add : EFloat → EFloat → EFloat
  | .nan, _ => .nan
  | _, .nan => .nan
  | .inf, .ninf => .nan
  | .ninf, .inf => .nan
  | .inf, _ => .inf
  | _, .inf => .inf
  | .ninf, _ => .ninf
  | _, .ninf => .ninf
  | .fin a, .fin b => .fin (a + b)

/-- Division by the positive constant 2 (`/2` in the source). -/
def EFloat.div2 : EFloat → EFloat
  | .fin a => .fin (a / 2)
  | .inf => .inf
  | .ninf => .ninf
  | .nan => .nan

/-- Division by the positive constant 10 (`/10` in the source). -/
def EFloat.div10 : EFloat → EFloat
  | .fin a => .fin (a / 10)
  | .inf => .inf
  | .ninf => .ninf
  | .nan => .nan

/-- IEEE-754 negation on the reachable values. -/
def EFloat.neg : EFloat → EFloat
  | .fin a => .fin (-a)
  | .inf => .ninf
  | .ninf => .inf
  | .nan => .nan

/-- An angle produced by `math.radians`; `radians` (= `deg·π/180`) is a
strictly monotone injection of the degree argument, so an angle in its range
is represented losslessly by that argument.  `Rad.mk 0` is `0.0` radians. -/
structure Rad where
  deg : ℚ
deriving DecidableEq, Repr

/-- `math.radians`, represented by its (injective) degree preimage. -/
def radians (d : ℚ) : Rad := ⟨d⟩

/-- A text curve data block (`bpy.data.curves.new(type='FONT')`). -/
structure TextCurve where
  body : String
  size : ℚ
  align_x : String
deriving DecidableEq, Repr

/-- A per-vertex color attribute created by `color_attributes.new`.  The
source loops over `colattr.data` writing the same `mesh_col` into every
point-domain entry, so the (uniform) attribute is represented by the single
RGBA list written to each vertex. -/
structure ColorAttr where
  name : String
  attrType : String
  domain : String
  value : List ℚ
deriving DecidableEq, Repr

/-- Mesh data as produced by the host geometry operators, modelled freely:
`extruded` is the result of `from_pydata` on one n-gon face followed by the
applied Solidify modifier (offset, thickness); `difference` is the result of
an applied EXACT boolean DIFFERENCE modifier. -/
inductive Solid where
  | extruded (verts : List Vec3) (face : List Nat) (offset : ℚ) (thickness : ℚ)
  | difference (a b : Solid)
deriving DecidableEq, Repr

/-- The data block owned by an object: a mesh (with its color attributes)
or a text curve. -/
inductive ObjData where
  | meshData (solid : Solid) (colorAttrs : List ColorAttr)
  | textData (curve : TextCurve)
deriving DecidableEq, Repr

/-- A `bpy.types.Object`: identity, name, data block, location and Euler
rotation (objects are created with zero rotation). -/
structure Object where
  id : Nat
  name : String
  data : ObjData
  location : EFloat × EFloat × EFloat
  rotation_euler : Rad × Rad × Rad
deriving DecidableEq, Repr

/-- A ghost trace entry: which objects the run created and deleted. -/
inductive Event where
  | createdMesh (id : Nat) (isHole : Bool)
  | createdLabel (id : Nat)
  | deleted (id : Nat)
deriving DecidableEq, Repr

/-- The Blender state: fresh-id counter, `bpy.data.objects`, the ids linked
to `bpy.data.collections['Collection']`, and the ghost event trace. -/
structure BState where
  nextId : Nat
  objs : List Object
  linked : List Nat
  events : List Event
deriving DecidableEq, Repr

/-- A fresh scene: no objects, nothing linked, empty trace. -/
def initState : BState := ⟨0, [], [], []⟩

/-- `bpy.data.objects` lookup by id. -/
def findObj (objs : List Object) (i : Nat) : Option Object :=
  objs.find? (fun o => o.id == i)

/-- In-place mutation of the object with id `i` (modifier apply, attribute
creation): every stored reference sees the new value. -/
def replaceObj (objs : List Object) (i : Nat) (newObj : Object) : List Object :=
  objs.map (fun o => if o.id == i then newObj else o)

/-- `bpy.ops.object.delete()`: the object with id `i` is removed. -/
def removeObj (objs : List Object) (i : Nat) : List Object :=
  objs.filter (fun o => o.id != i)

/-- The `for vtx in vertices` loop of `createShapeObj`: appends
`len(mesh_vtx)` to `mesh_face` and `(-x/10, y/10, position.z)` to
`mesh_vtx`, in input order. -/
def buildMesh (vertices : List Pt) (z : ℚ) : List Vec3 × List Nat :=
  vertices.foldl
    (fun acc vtx => (acc.1 ++ [⟨-vtx.x / 10, vtx.y / 10, z⟩], acc.2 ++ [acc.1.length]))
    ([], [])

/-- `createShapeObj(vertices, geometry, isHole)`: builds the n-gon mesh,
adds and applies a Solidify of thickness `geometry['scale']['z']` (or the
oversized 999 for holes), moves the object to `(0, 0, scale.z/2)` and links
it into the collection. -/
def createShapeObj (st : BState) (vertices : List Pt) (geometry : Geometry)
    (isHole : Bool) : Object × BState :=
  let mesh := buildMesh vertices geometry.position.z
  let thickness : ℚ := if !isHole then geometry.scale.z else 999
  let solid := Solid.extruded mesh.1 mesh.2 0 thickness
  let loc_z := geometry.scale.z / 2
  let obj : Object :=
    ⟨st.nextId, "Mesh", .meshData solid [],
      (.fin 0, .fin 0, .fin loc_z), (⟨0⟩, ⟨0⟩, ⟨0⟩)⟩
  (obj, ⟨st.nextId + 1, st.objs ++ [obj], st.linked ++ [obj.id],
         st.events ++ [.createdMesh obj.id isHole]⟩)

/-- `subtractObj(obj1, obj2)`: adds a boolean DIFFERENCE modifier pointing
at `obj2`, applies it (replacing `obj1`'s mesh with the difference), then
deletes `obj2` from the scene.  Returns the mutated `obj1` reference. -/
def subtractObj (st : BState) (obj1 obj2 : Object) : Object × BState :=
  let newData :=
    match obj1.data, obj2.data with
    | .meshData s1 cs, .meshData s2 _ => ObjData.meshData (.difference s1 s2) cs
    | d, _ => d
  let obj1' : Object := ⟨obj1.id, obj1.name, newData, obj1.location, obj1.rotation_euler⟩
  (obj1',
    ⟨st.nextId,
     removeObj (replaceObj st.objs obj1.id obj1') obj2.id,
     st.linked.filter (fun i => i != obj2.id),
     st.events ++ [.deleted obj2.id]⟩)

/-- One step of `getShapeOrigin`'s loop: the four comparisons against the
running bounds, in source order (min_x, max_x, min_y, max_y). -/
def originStep (acc : EFloat × EFloat × EFloat × EFloat) (vtx : Pt) :
    EFloat × EFloat × EFloat × EFloat :=
  let m1 := if EFloat.lt (.fin vtx.x) acc.1 then EFloat.fin vtx.x else acc.1
  let m2 := if EFloat.lt acc.2.1 (.fin vtx.x) then EFloat.fin vtx.x else acc.2.1
  let m3 := if EFloat.lt (.fin vtx.y) acc.2.2.1 then EFloat.fin vtx.y else acc.2.2.1
  let m4 := if EFloat.lt acc.2.2.2 (.fin vtx.y) then EFloat.fin vtx.y else acc.2.2.2
  (m1, m2, m3, m4)

/-- `getShapeOrigin(vertices)`: bounds start at `(inf, -inf, inf, -inf)`,
the loop tightens them, and the result is the bounding-box midpoint
`((min_x+max_x)/2, (min_y+max_y)/2)` — with float semantics, so the empty
sequence yields `(inf + -inf)/2 = nan` in both components. -/
def getShapeOrigin (vertices : List Pt) : EFloat × EFloat :=
  let r := vertices.foldl originStep (.inf, .ninf, .inf, .ninf)
  ((r.1.add r.2.1).div2, (r.2.2.1.add r.2.2.2).div2)

/-- Value of one hex digit, as accepted by Python's `int(s, 16)`. -/
def hexDigit (c : Char) : Option Nat :=
  if '0' ≤ c ∧ c ≤ '9' then some (c.toNat - '0'.toNat)
  else if 'a' ≤ c ∧ c ≤ 'f' then some (c.toNat - 'a'.toNat + 10)
  else if 'A' ≤ c ∧ c ≤ 'F' then some (c.toNat - 'A'.toNat + 10)
  else none

/-- `int(s, 16)` on the slices the script produces: `none` models the
`ValueError` raised on an empty or non-hex-digit string. -/
def pyIntHex (s : String) : Option Nat :=
  if s.toList.isEmpty then none
  else
    s.toList.foldl
      (fun acc c =>
        match acc, hexDigit c with
        | some n, some d => some (16 * n + d)
        | _, _ => none)
      (some 0)

/-- Python slice `s[a:b]` for `0 ≤ a ≤ b` (short strings give short or
empty slices, never an error). -/
def pySlice (s : String) (a b : Nat) : String :=
  ⟨(s.toList.drop a).take (b - a)⟩

/-- The `mesh_col` list of `applyColorAttrib`: the three hex channels of
`material['color']` normalized by 255, then `material['opacity']`.  A slice
that `int(·, 16)` rejects raises `ValueError` before any mutation. -/
def meshCol (material : Material) : Except PyErr (List ℚ) :=
  match pyIntHex (pySlice material.color 1 3),
        pyIntHex (pySlice material.color 3 5),
        pyIntHex (pySlice material.color 5 7) with
  | some r, some g, some b =>
      .ok [(r : ℚ) / 255, (g : ℚ) / 255, (b : ℚ) / 255, material.opacity]
  | _, _, _ => .error .valueError

/-- The `for vtx in colattr.data` loop: writes the same `mesh_col` into
every point-domain entry of the new color attribute. -/
def colorLoop (entries : List (List ℚ)) (col : List ℚ) : List (List ℚ) :=
  entries.map (fun _ => col)

/-- `applyColorAttrib(obj, material)`: computes `mesh_col` (possibly
raising `ValueError`), then creates a FLOAT_COLOR / POINT attribute named
`Color` on the object's mesh and writes `mesh_col` to every vertex.  The
`if material is not None` guard is always true here because `importJson`
only passes a present `material` dict. -/
def applyColorAttrib (st : BState) (obj : Object) (material : Material) :
    BState × Option PyErr :=
  match meshCol material with
  | .error e => (st, some e)
  | .ok col =>
    let newData :=
      match obj.data with
      | .meshData s cs => ObjData.meshData s (cs ++ [⟨"Color", "FLOAT_COLOR", "POINT", col⟩])
      | d => d
    (⟨st.nextId,
      replaceObj st.objs obj.id ⟨obj.id, obj.name, newData, obj.location, obj.rotation_euler⟩,
      st.linked, st.events⟩, none)

/-- The `align_x` conditional expression of `createLabel`. -/
def alignOf (a : String) : String :=
  if a == "left" then "LEFT" else if a == "right" then "RIGHT" else "CENTER"

/-- `createLabel(lb, vtx)`: builds the text curve (size `fontSize/1.5`),
places the object at `(-origin.x/10, origin.y/10, position.z/10 or 0)` with
`origin = getShapeOrigin(vtx)`, sets the Euler rotation from the degree
fields (z offset by +180) and links the object. -/
def createLabel (st : BState) (lb : Label) (vtx : List Pt) : BState :=
  let curve : TextCurve := ⟨lb.text, lb.fontSize / (1.5 : ℚ), alignOf lb.align⟩
  let origin := getShapeOrigin vtx
  let loc_x := (EFloat.neg origin.1).div10
  let loc_y := origin.2.div10
  let loc_z : EFloat :=
    match lb.position.z with
    | some z => .fin (z / 10)
    | none => .fin 0
  let rot_x : Rad := match lb.rotation.x with | some d => radians d | none => ⟨0⟩
  let rot_y : Rad := match lb.rotation.y with | some d => radians d | none => ⟨0⟩
  let rot_z : Rad := match lb.rotation.z with | some d => radians (d + 180) | none => ⟨0⟩
  let obj : Object :=
    ⟨st.nextId, "Label", .textData curve, (loc_x, loc_y, loc_z), (rot_x, rot_y, rot_z)⟩
  ⟨st.nextId + 1, st.objs ++ [obj], st.linked ++ [obj.id],
   st.events ++ [.createdLabel obj.id]⟩

/-- The `for hole in shape['holes']` loop of `importJson`: create the
oversized hole solid, subtract it from the (progressively modified) shape
object, repeat for the next hole. -/
def holeLoop (geo : Geometry) (holes : List (List Pt)) (obj1 : Object)
    (st : BState) : Object × BState :=
  match holes with
  | [] => (obj1, st)
  | hole :: rest =>
    let c := createShapeObj st hole geo true
    let s := subtractObj c.2 obj1 c.1
    holeLoop geo rest s.1 s.2

/-- The "create shape geometry" section of `importJson`'s loop body:
guarded by `'vertexes' in shape and shape['geometry']['visible']`, it builds
the solid, subtracts the holes and applies the color, raising `KeyError` /
`ValueError` exactly where the source would. -/
def meshPart (st : BState) (shape : ShapeRecord) : BState × Option PyErr :=
  match shape.vertexes with
  | none => (st, none)
  | some vtx =>
    match shape.geometry with
    | none => (st, some (.keyError "geometry"))
    | some geo =>
      if geo.visible then
        let c := createShapeObj st vtx geo false
        let h :=
          match shape.holes with
          | some holes => holeLoop geo holes c.1 c.2
          | none => c
        match shape.material with
        | none => (h.2, some (.keyError "material"))
        | some mat =>
          match applyColorAttrib h.2 h.1 mat with
          | (st3, none) => (st3, none)
          | (_, some e) => (h.2, some e)
      else (st, none)

/-- The "create text labels" section of `importJson`'s loop body: guarded
by `'label' in shape and 'visible' in shape['label'] and
shape['label']['visible']`; reading `shape['vertexes']` for the parent
shape raises `KeyError` when the key is absent. -/
def labelPart (st : BState) (shape : ShapeRecord) : BState × Option PyErr :=
  match shape.label with
  | none => (st, none)
  | some lb =>
    match lb.visible with
    | some true =>
      match shape.vertexes with
      | none => (st, some (.keyError "vertexes"))
      | some vtx => (createLabel st lb vtx, none)
    | _ => (st, none)

/-- The body of `importJson`'s `for shape in data` loop for one record,
with Python exception semantics: the returned state is the Blender state at
the moment the (optional) exception was raised. -/
def processShape (st : BState) (shape : ShapeRecord) : BState × Option PyErr :=
  match meshPart st shape with
  | (st', some e) => (st', some e)
  | (st', none) => labelPart st' shape

/-- `importJson`'s loop over the decoded array (reading and parsing the
file is host I/O).  An uncaught exception stops the loop; the first
component is the Blender state when the run ended. -/
def importJson (data : List ShapeRecord) (st : BState) : BState × Option PyErr :=
  match data with
  | [] => (st, none)
  | shape :: rest =>
    match processShape st shape with
    | (st', none) => importJson rest st'
    | (st', some e) => (st', some e)

/-- Ghost-trace predicate: creation of a shape (non-hole) mesh object. -/
def isShapeCreateEvt : Event → Bool
  | .createdMesh _ false => true
  | _ => false

/-- Ghost-trace predicate: creation of a hole solid. -/
def isHoleCreateEvt : Event → Bool
  | .createdMesh _ true => true
  | _ => false

/-- Ghost-trace predicate: deletion of an object. -/
def isDeleteEvt : Event → Bool
  | .deleted _ => true
  | _ => false

/-- Ghost-trace predicate: creation of a label object. -/
def isLabelCreateEvt : Event → Bool
  | .createdLabel _ => true
  | _ => false

/-- The event block generated by processing a list of holes whose solids
get ids `n, n+1, …`: each hole solid is created and then deleted
immediately after its subtraction. -/
def holeEvents (n : Nat) : List (List Pt) → List Event
  | [] => []
  | _ :: rest => .createdMesh n true :: .deleted n :: holeEvents (n + 1) rest

/-- Condition of the spec for contributing mesh geometry: a `vertexes` key
plus a `geometry` whose `visible` flag is true. -/
def meshCond (sh : ShapeRecord) : Bool :=
  match sh.vertexes, sh.geometry with
  | some _, some g => g.visible
  | _, _ => false

/-- Condition of the spec for contributing a label: a `label` key whose
record has `visible` present and true. -/
def labelCond (sh : ShapeRecord) : Bool :=
  match sh.label with
  | some lb => lb.visible == some true
  | none => false

/-- The solid `createShapeObj` builds for a (non-hole) shape outline. -/
def shapeSolidOf (geo : Geometry) (vs : List Pt) : Solid :=
  .extruded (buildMesh vs geo.position.z).1 (buildMesh vs geo.position.z).2 0 geo.scale.z

/-- The oversized solid `createShapeObj` builds for a hole outline. -/
def holeSolidOf (geo : Geometry) (vs : List Pt) : Solid :=
  .extruded (buildMesh vs geo.position.z).1 (buildMesh vs geo.position.z).2 0 999

/-- State well-formedness: every live object id and every linked id is
below the fresh-id counter. -/
def WF (st : BState) : Prop :=
  (∀ o ∈ st.objs, o.id < st.nextId) ∧ (∀ i ∈ st.linked, i < st.nextId)

/-! ### Characterization of the mesh-building loop -/

theorem buildMesh_go (z : ℚ) :
    ∀ (vs : List Pt) (a : List Vec3) (b : List Nat),
      vs.foldl
          (fun acc vtx => (acc.1 ++ [⟨-vtx.x / 10, vtx.y / 10, z⟩], acc.2 ++ [acc.1.length]))
          (a, b)
        = (a ++ vs.map (fun p => ⟨-p.x / 10, p.y / 10, z⟩),
           b ++ List.range' a.length vs.length) := by
  intro vs
  induction vs with
  | nil => intro a b; simp
  | cons v rest ih =>
    intro a b
    simp only [List.foldl_cons]
    rw [ih]
    simp [List.range'_succ, List.append_assoc]

/-- The loop of `createShapeObj` maps every point through the same pure
function `(x, y) ↦ (-x/10, y/10)` and builds the single face `[0, …, n-1]`. -/
theorem buildMesh_eq (vs : List Pt) (z : ℚ) :
    buildMesh vs z = (vs.map (fun p => ⟨-p.x / 10, p.y / 10, z⟩), List.range vs.length) := by
  unfold buildMesh
  rw [buildMesh_go]
  simp [List.range_eq_range']

/-! ### The origin calculator -/

/-- The running-minimum update of `getShapeOrigin`, as a function. -/
def minE (m : EFloat) (q : ℚ) : EFloat :=
  if EFloat.lt (.fin q) m then .fin q else m

/-- The running-maximum update of `getShapeOrigin`, as a function. -/
def maxE (m : EFloat) (q : ℚ) : EFloat :=
  if EFloat.lt m (.fin q) then .fin q else m

theorem originStep_eq (s : EFloat × EFloat × EFloat × EFloat) (v : Pt) :
    originStep s v = (minE s.1 v.x, maxE s.2.1 v.x, minE s.2.2.1 v.y, maxE s.2.2.2 v.y) := rfl

theorem minE_fin (a q : ℚ) : minE (.fin a) q = .fin (min a q) := by
  unfold minE
  simp only [EFloat.lt]
  by_cases h : q < a
  · simp [h, min_eq_right h.le]
  · simp [h, min_eq_left (le_of_not_lt h)]

theorem maxE_fin (b q : ℚ) : maxE (.fin b) q = .fin (max b q) := by
  unfold maxE
  simp only [EFloat.lt]
  by_cases h : b < q
  · simp [h, max_eq_right h.le]
  · simp [h, max_eq_left (le_of_not_lt h)]

theorem minE_inf (q : ℚ) : minE .inf q = .fin q := by simp [minE, EFloat.lt]

theorem maxE_ninf (q : ℚ) : maxE .ninf q = .fin q := by simp [maxE, EFloat.lt]

theorem minE_comm (m : EFloat) (p q : ℚ) : minE (minE m p) q = minE (minE m q) p := by
  cases m with
  | fin c => rw [minE_fin, minE_fin, minE_fin, minE_fin, min_right_comm]
  | inf => rw [minE_inf, minE_inf, minE_fin, minE_fin, min_comm]
  | ninf => simp [minE, EFloat.lt]
  | nan => simp [minE, EFloat.lt]

theorem maxE_comm (m : EFloat) (p q : ℚ) : maxE (maxE m p) q = maxE (maxE m q) p := by
  cases m with
  | fin c => rw [maxE_fin, maxE_fin, maxE_fin, maxE_fin, max_assoc, max_comm p q, ← max_assoc]
  | ninf => rw [maxE_ninf, maxE_ninf, maxE_fin, maxE_fin, max_comm]
  | inf => simp [maxE, EFloat.lt]
  | nan => simp [maxE, EFloat.lt]

theorem originStep_comm (s : EFloat × EFloat × EFloat × EFloat) (a b : Pt) :
    originStep (originStep s a) b = originStep (originStep s b) a := by
  obtain ⟨m1, m2, m3, m4⟩ := s
  simp only [originStep_eq]
  exact congrArg₂ Prod.mk (minE_comm m1 a.x b.x)
    (congrArg₂ Prod.mk (maxE_comm m2 a.x b.x)
      (congrArg₂ Prod.mk (minE_comm m3 a.y b.y) (maxE_comm m4 a.y b.y)))

theorem originFold_perm {l₁ l₂ : List Pt} (p : l₁.Perm l₂) :
    ∀ s, l₁.foldl originStep s = l₂.foldl originStep s := by
  induction p with
  | nil => intro s; rfl
  | cons x _ ih => intro s; simp only [List.foldl_cons]; exact ih _
  | swap x y l => intro s; simp only [List.foldl_cons]; rw [originStep_comm]
  | trans _ _ ih₁ ih₂ => intro s; rw [ih₁, ih₂]

theorem originFold_fin (vs : List Pt) :
    ∀ (a b c d : ℚ),
      vs.foldl originStep (.fin a, .fin b, .fin c, .fin d)
        = (.fin (vs.foldl (fun m p => min m p.x) a),
           .fin (vs.foldl (fun m p => max m p.x) b),
           .fin (vs.foldl (fun m p => min m p.y) c),
           .fin (vs.foldl (fun m p => max m p.y) d)) := by
  induction vs with
  | nil => intro a b c d; rfl
  | cons v rest ih =>
    intro a b c d
    simp only [List.foldl_cons, originStep_eq, minE_fin, maxE_fin]
    exact ih (min a v.x) (max b v.x) (min c v.y) (max d v.y)

theorem originStep_init (v : Pt) :
    originStep (.inf, .ninf, .inf, .ninf) v = (.fin v.x, .fin v.x, .fin v.y, .fin v.y) := by
  simp only [originStep_eq, minE_inf, maxE_ninf]

/-- On a non-empty sequence `getShapeOrigin` computes the exact axis-aligned
bounding-box midpoint, finitely. -/
theorem getShapeOrigin_cons (v : Pt) (vs : List Pt) :
    getShapeOrigin (v :: vs)
      = (.fin ((vs.foldl (fun m p => min m p.x) v.x
                + vs.foldl (fun m p => max m p.x) v.x) / 2),
         .fin ((vs.foldl (fun m p => min m p.y) v.y
                + vs.foldl (fun m p => max m p.y) v.y) / 2)) := by
  unfold getShapeOrigin
  rw [List.foldl_cons, originStep_init, originFold_fin]
  rfl

/-! ### Counting over the ghost trace -/

theorem holeEvents_count_hole (hs : List (List Pt)) :
    ∀ n, List.countP isHoleCreateEvt (holeEvents n hs) = hs.length := by
  induction hs with
  | nil => intro n; rfl
  | cons h rest ih =>
    intro n
    simp [holeEvents, List.countP_cons, isHoleCreateEvt, ih n.succ]

theorem holeEvents_count_delete (hs : List (List Pt)) :
    ∀ n, List.countP isDeleteEvt (holeEvents n hs) = hs.length := by
  induction hs with
  | nil => intro n; rfl
  | cons h rest ih =>
    intro n
    simp [holeEvents, List.countP_cons, isDeleteEvt, ih n.succ]

theorem holeEvents_count_shape (hs : List (List Pt)) :
    ∀ n, List.countP isShapeCreateEvt (holeEvents n hs) = 0 := by
  induction hs with
  | nil => intro n; rfl
  | cons h rest ih =>
    intro n
    simp [holeEvents, List.countP_cons, isShapeCreateEvt, ih n.succ]

theorem holeEvents_count_label (hs : List (List Pt)) :
    ∀ n, List.countP isLabelCreateEvt (holeEvents n hs) = 0 := by
  induction hs with
  | nil => intro n; rfl
  | cons h rest ih =>
    intro n
    simp [holeEvents, List.countP_cons, isLabelCreateEvt, ih n.succ]

theorem holeEvents_no_shape_or_label (hs : List (List Pt)) :
    ∀ n, ∀ e ∈ holeEvents n hs, isHoleCreateEvt e = true ∨ isDeleteEvt e = true := by
  induction hs with
  | nil => intro n e he; cases he
  | cons h rest ih =>
    intro n e he
    simp only [holeEvents, List.mem_cons] at he
    rcases he with rfl | rfl | he
    · left; rfl
    · right; rfl
    · exact ih (n + 1) e he

/-! ### Object-store lemmas -/

theorem findObj_append_left {objs : List Object} {i : Nat} {a : Object}
    (h : findObj objs i = some a) (l : List Object) :
    findObj (objs ++ l) i = some a := by
  unfold findObj at h ⊢
  rw [List.find?_append, h]
  rfl

theorem findObj_append_new {objs : List Object} {i : Nat} (a : Object)
    (h : ∀ o ∈ objs, o.id ≠ i) (ha : a.id = i) :
    findObj (objs ++ [a]) i = some a := by
  unfold findObj
  rw [List.find?_append]
  have h1 : List.find? (fun o => o.id == i) objs = none := by
    rw [List.find?_eq_none]
    intro o ho
    simpa using h o ho
  rw [h1]
  simp [List.find?, ha]

theorem findObj_replace {objs : List Object} {i : Nat} {a : Object}
    (h : findObj objs i = some a) (b : Object) (hb : b.id = i) :
    findObj (replaceObj objs i b) i = some b := by
  induction objs with
  | nil => simp [findObj] at h
  | cons o rest ih =>
    by_cases ho : o.id = i
    · have hrepl : replaceObj (o :: rest) i b = b :: replaceObj rest i b := by
        simp [replaceObj, ho]
      rw [hrepl]
      unfold findObj
      rw [List.find?_cons_of_pos _ (by simp [hb])]
    · have hrepl : replaceObj (o :: rest) i b = o :: replaceObj rest i b := by
        simp [replaceObj, ho]
      have hfind : findObj rest i = some a := by
        unfold findObj at h
        rwa [List.find?_cons_of_neg _ (by simp [ho])] at h
      rw [hrepl]
      unfold findObj
      rw [List.find?_cons_of_neg _ (by simp [ho])]
      exact ih hfind

theorem findObj_remove {objs : List Object} {i j : Nat} {a : Object}
    (h : findObj objs i = some a) (hij : i ≠ j) :
    findObj (removeObj objs j) i = some a := by
  induction objs with
  | nil => simp [findObj] at h
  | cons o rest ih =>
    by_cases ho : o.id = i
    · have hfind : List.find? (fun x => x.id == i) (o :: rest) = some a := h
      rw [List.find?_cons_of_pos _ (by simp [ho])] at hfind
      have hrem : removeObj (o :: rest) j = o :: removeObj rest j := by
        simp [removeObj, List.filter_cons]
        intro hoj
        exact absurd (ho.symm.trans hoj) hij
      rw [hrem]
      unfold findObj
      rw [List.find?_cons_of_pos _ (by simp [ho])]
      exact hfind
    · have hfind : findObj rest i = some a := by
        unfold findObj at h
        rwa [List.find?_cons_of_neg _ (by simp [ho])] at h
      by_cases hoj : o.id = j
      · have hrem : removeObj (o :: rest) j = removeObj rest j := by
          simp [removeObj, List.filter_cons, hoj]
        rw [hrem]
        exact ih hfind
      · have hrem : removeObj (o :: rest) j = o :: removeObj rest j := by
          simp [removeObj, List.filter_cons, hoj]
        rw [hrem]
        unfold findObj
        rw [List.find?_cons_of_neg _ (by simp [ho])]
        exact ih hfind

theorem replaceObj_mem {objs : List Object} {i : Nat} {b o : Object}
    (h : o ∈ replaceObj objs i b) : o ∈ objs ∨ o = b := by
  unfold replaceObj at h
  rcases List.mem_map.mp h with ⟨o', ho', heq⟩
  by_cases hc : o'.id = i
  · right; simp [hc] at heq; exact heq.symm
  · left
    have : (o'.id == i) = false := by simpa using hc
    rw [this] at heq
    simp at heq
    exact heq ▸ ho'

theorem removeObj_mem {objs : List Object} {j : Nat} {o : Object}
    (h : o ∈ removeObj objs j) : o ∈ objs :=
  List.mem_of_mem_filter h

/-! ### The hole-subtraction loop -/

/-- Trace and id-counter effect of the hole loop, independent of the state
of the shape object: each of the `N` holes produces one hole-solid creation
followed immediately by its deletion. -/
theorem holeLoop_events (geo : Geometry) :
    ∀ (hs : List (List Pt)) (obj1 : Object) (st : BState),
      (holeLoop geo hs obj1 st).2.events = st.events ++ holeEvents st.nextId hs ∧
      (holeLoop geo hs obj1 st).2.nextId = st.nextId + hs.length := by
  intro hs
  induction hs with
  | nil => intro obj1 st; simp [holeLoop, holeEvents]
  | cons hole rest ih =>
    intro obj1 st
    simp only [holeLoop, createShapeObj, subtractObj]
    refine ⟨?_, ?_⟩
    · rw [(ih _ _).1]
      simp [holeEvents, List.append_assoc]
    · rw [(ih _ _).2]
      simp only [List.length_cons]
      omega

/-- Full characterization of the hole loop from a well-formed state: the
shape object's mesh becomes the left-nested boolean difference of the
original solid with the hole solids in input order, hole ids vanish from
the collection again, and the store still resolves the shape object. -/
theorem holeLoop_spec (geo : Geometry) :
    ∀ (hs : List (List Pt)) (obj1 : Object) (st : BState) (s : Solid) (cs : List ColorAttr),
      obj1.data = ObjData.meshData s cs →
      obj1.id < st.nextId →
      (∀ o ∈ st.objs, o.id < st.nextId) →
      (∀ i ∈ st.linked, i < st.nextId) →
      findObj st.objs obj1.id = some obj1 →
      (holeLoop geo hs obj1 st).1
          = ⟨obj1.id, obj1.name,
             ObjData.meshData
               (hs.foldl (fun a h => Solid.difference a (holeSolidOf geo h)) s) cs,
             obj1.location, obj1.rotation_euler⟩ ∧
      (holeLoop geo hs obj1 st).2.linked = st.linked ∧
      (∀ o ∈ (holeLoop geo hs obj1 st).2.objs, o.id < (holeLoop geo hs obj1 st).2.nextId) ∧
      findObj (holeLoop geo hs obj1 st).2.objs obj1.id = some (holeLoop geo hs obj1 st).1 := by
  intro hs
  induction hs with
  | nil =>
    intro obj1 st s cs hdata hid hobjs hlinked hfind
    refine ⟨?_, rfl, hobjs, hfind⟩
    simp only [List.foldl_nil, holeLoop]
    rw [← hdata]
  | cons hole rest ih =>
    intro obj1 st s cs hdata hid hobjs hlinked hfind
    -- names for the intermediate objects and states of one iteration
    set holeObj : Object :=
      ⟨st.nextId, "Mesh",
        .meshData (.extruded (buildMesh hole geo.position.z).1
          (buildMesh hole geo.position.z).2 0 999) [],
        (.fin 0, .fin 0, .fin (geo.scale.z / 2)), (⟨0⟩, ⟨0⟩, ⟨0⟩)⟩ with hholeObj
    set obj1' : Object :=
      ⟨obj1.id, obj1.name,
        ObjData.meshData (Solid.difference s (holeSolidOf geo hole)) cs,
        obj1.location, obj1.rotation_euler⟩ with hobj1'
    set st2 : BState :=
      ⟨st.nextId + 1,
       removeObj (replaceObj (st.objs ++ [holeObj]) obj1.id obj1') st.nextId,
       (st.linked ++ [st.nextId]).filter (fun i => i != st.nextId),
       (st.events ++ [.createdMesh st.nextId true]) ++ [.deleted st.nextId]⟩ with hst2
    have hstep : holeLoop geo (hole :: rest) obj1 st = holeLoop geo rest obj1' st2 := by
      simp [holeLoop, createShapeObj, subtractObj, hdata, holeSolidOf, hholeObj,
        hobj1', hst2]
    have hlink2 : st2.linked = st.linked := by
      rw [hst2]
      simp only [List.filter_append]
      have h1 : st.linked.filter (fun i => i != st.nextId) = st.linked :=
        List.filter_eq_self.mpr (fun a ha => by simp [Nat.ne_of_lt (hlinked a ha)])
      have h2 : [st.nextId].filter (fun i => i != st.nextId) = ([] : List Nat) := by simp
      simp [h1, h2]
    have hobjs2 : ∀ o ∈ st2.objs, o.id < st2.nextId := by
      intro o ho
      rw [hst2] at ho ⊢
      simp only
      have ho' := removeObj_mem ho
      rcases replaceObj_mem ho' with hmem | rfl
      · rcases List.mem_append.mp hmem with hmem' | hmem'
        · exact Nat.lt_succ_of_lt (hobjs o hmem')
        · rcases List.mem_singleton.mp hmem' with rfl
          exact Nat.lt_succ_self _
      · exact Nat.lt_succ_of_lt hid
    have hfind2 : findObj st2.objs obj1.id = some obj1' := by
      rw [hst2]
      simp only
      exact findObj_remove
        (findObj_replace (findObj_append_left hfind [holeObj]) obj1' rfl)
        (Nat.ne_of_lt hid)
    have ihr := ih obj1' st2 (Solid.difference s (holeSolidOf geo hole)) cs rfl
      (by rw [hst2]; exact Nat.lt_succ_of_lt hid) hobjs2
      (by rw [hlink2, hst2]; exact fun i hi => Nat.lt_succ_of_lt (hlinked i hi))
      hfind2
    refine ⟨?_, ?_, ?_, ?_⟩
    · rw [hstep, ihr.1]
      simp [List.foldl_cons]
    · rw [hstep, ihr.2.1, hlink2]
    · rw [hstep]
      exact ihr.2.2.1
    · rw [hstep]
      exact ihr.2.2.2.symm ▸ ihr.2.2.2

/-! ### The label section -/

/-- The object `createLabel` builds: text curve with size `fontSize/1.5`,
located at the negated/scaled shape origin, rotated by the degree fields
(z offset by +180°) converted through `radians`. -/
def labelObjOf (n : Nat) (lb : Label) (vtx : List Pt) : Object :=
  ⟨n, "Label",
   .textData ⟨lb.text, lb.fontSize / (1.5 : ℚ), alignOf lb.align⟩,
   ((EFloat.neg (getShapeOrigin vtx).1).div10,
    (getShapeOrigin vtx).2.div10,
    match lb.position.z with
    | some z => .fin (z / 10)
    | none => .fin 0),
   (match lb.rotation.x with | some d => radians d | none => ⟨0⟩,
    match lb.rotation.y with | some d => radians d | none => ⟨0⟩,
    match lb.rotation.z with | some d => radians (d + 180) | none => ⟨0⟩)⟩

theorem createLabel_eq (st : BState) (lb : Label) (vtx : List Pt) :
    createLabel st lb vtx
      = ⟨st.nextId + 1, st.objs ++ [labelObjOf st.nextId lb vtx],
         st.linked ++ [st.nextId], st.events ++ [.createdLabel st.nextId]⟩ := rfl

/-- The three possible outcomes of the label section: skipped (no label key
or `visible` absent/false), label created, or `KeyError` on the missing
parent `vertexes`. -/
theorem labelPart_trichotomy (st : BState) (sh : ShapeRecord) :
    (labelCond sh = false ∧ labelPart st sh = (st, none)) ∨
    (∃ lb vtx, sh.label = some lb ∧ lb.visible = some true ∧ sh.vertexes = some vtx ∧
      labelCond sh = true ∧ labelPart st sh = (createLabel st lb vtx, none)) ∨
    (labelCond sh = true ∧ sh.vertexes = none ∧
      labelPart st sh = (st, some (.keyError "vertexes"))) := by
  rcases hsl : sh.label with _ | lb
  · left
    exact ⟨by simp [labelCond, hsl], by simp [labelPart, hsl]⟩
  · rcases hv : lb.visible with _ | b
    · left
      exact ⟨by simp [labelCond, hsl, hv], by simp [labelPart, hsl, hv]⟩
    · cases b
      · left
        exact ⟨by simp [labelCond, hsl, hv], by simp [labelPart, hsl, hv]⟩
      · rcases hvt : sh.vertexes with _ | vtx
        · right; right
          exact ⟨by simp [labelCond, hsl, hv], rfl, by simp [labelPart, hsl, hv, hvt]⟩
        · right; left
          exact ⟨lb, vtx, rfl, hv, rfl, by simp [labelCond, hsl, hv],
            by simp [labelPart, hsl, hv, hvt]⟩

/-! ### The mesh section -/

theorem createShapeObj_eq (st : BState) (vtx : List Pt) (geo : Geometry) :
    createShapeObj st vtx geo false
      = (⟨st.nextId, "Mesh", .meshData (shapeSolidOf geo vtx) [],
          (.fin 0, .fin 0, .fin (geo.scale.z / 2)), (⟨0⟩, ⟨0⟩, ⟨0⟩)⟩,
         ⟨st.nextId + 1,
          st.objs ++ [⟨st.nextId, "Mesh", .meshData (shapeSolidOf geo vtx) [],
            (.fin 0, .fin 0, .fin (geo.scale.z / 2)), (⟨0⟩, ⟨0⟩, ⟨0⟩)⟩],
          st.linked ++ [st.nextId],
          st.events ++ [.createdMesh st.nextId false]⟩) := rfl

theorem meshPart_novert {st : BState} {sh : ShapeRecord} (h : sh.vertexes = none) :
    meshPart st sh = (st, none) := by
  simp [meshPart, h]

theorem meshPart_nogeo {st : BState} {sh : ShapeRecord} {vtx : List Pt}
    (hv : sh.vertexes = some vtx) (hg : sh.geometry = none) :
    meshPart st sh = (st, some (.keyError "geometry")) := by
  simp [meshPart, hv, hg]

theorem meshPart_invisible {st : BState} {sh : ShapeRecord} {vtx : List Pt} {geo : Geometry}
    (hv : sh.vertexes = some vtx) (hg : sh.geometry = some geo) (hvis : geo.visible = false) :
    meshPart st sh = (st, none) := by
  simp [meshPart, hv, hg, hvis]

/-- The progressively subtracted solid a visible shape ends up with. -/
def finalSolid (geo : Geometry) (vtx : List Pt) (hs : List (List Pt)) : Solid :=
  hs.foldl (fun a h => Solid.difference a (holeSolidOf geo h)) (shapeSolidOf geo vtx)

/-- Characterization of the mesh section for a visible shape with a
`vertexes` key, from a well-formed state.  These conclusions hold whether
or not the material step succeeds (the color error is raised after the hole
loop finished). -/
theorem meshPart_visible_spec {st : BState} {sh : ShapeRecord} {vtx : List Pt} {geo : Geometry}
    (hv : sh.vertexes = some vtx) (hg : sh.geometry = some geo) (hvis : geo.visible = true)
    (hwf : WF st) :
    (meshPart st sh).1.events
        = st.events ++ Event.createdMesh st.nextId false ::
            holeEvents (st.nextId + 1) (sh.holes.getD []) ∧
    (meshPart st sh).1.linked = st.linked ++ [st.nextId] ∧
    (meshPart st sh).1.nextId = st.nextId + 1 + (sh.holes.getD []).length ∧
    (∃ obj cs, findObj (meshPart st sh).1.objs st.nextId = some obj ∧
        obj.data = ObjData.meshData (finalSolid geo vtx (sh.holes.getD [])) cs) ∧
    (∀ o ∈ (meshPart st sh).1.objs, o.id < (meshPart st sh).1.nextId) := by
  obtain ⟨hobjs, hlinked⟩ := hwf
  set n := st.nextId with hn
  set shapeObj : Object :=
    ⟨n, "Mesh", .meshData (shapeSolidOf geo vtx) [],
      (.fin 0, .fin 0, .fin (geo.scale.z / 2)), (⟨0⟩, ⟨0⟩, ⟨0⟩)⟩ with hshapeObj
  set st1 : BState :=
    ⟨n + 1, st.objs ++ [shapeObj], st.linked ++ [n],
     st.events ++ [.createdMesh n false]⟩ with hst1
  have hc : createShapeObj st vtx geo false = (shapeObj, st1) := createShapeObj_eq st vtx geo
  set hs := sh.holes.getD [] with hhs
  set A := holeLoop geo hs shapeObj st1 with hA
  have hobjs1 : ∀ o ∈ st1.objs, o.id < st1.nextId := by
    intro o ho
    rcases List.mem_append.mp ho with ho' | ho'
    · exact Nat.lt_succ_of_lt (hobjs o ho')
    · rcases List.mem_singleton.mp ho' with rfl
      exact Nat.lt_succ_self _
  have hlinked1 : ∀ i ∈ st1.linked, i < st1.nextId := by
    intro i hi
    rcases List.mem_append.mp hi with hi' | hi'
    · exact Nat.lt_succ_of_lt (hlinked i hi')
    · rcases List.mem_singleton.mp hi' with rfl
      exact Nat.lt_succ_self _
  have hfind1 : findObj st1.objs shapeObj.id = some shapeObj :=
    findObj_append_new shapeObj (fun o ho => Nat.ne_of_lt (hobjs o ho)) rfl
  have hspec := holeLoop_spec geo hs shapeObj st1 (shapeSolidOf geo vtx) [] rfl
    (Nat.lt_succ_self _) hobjs1 hlinked1 hfind1
  have hev := holeLoop_events geo hs shapeObj st1
  have hAevents : A.2.events
      = st.events ++ Event.createdMesh n false :: holeEvents (n + 1) hs := by
    rw [← hA] at hev
    rw [hev.1]
    simp [hst1]
  have hAnext : A.2.nextId = n + 1 + hs.length := by
    rw [← hA] at hev
    rw [hev.2]
  have hAlinked : A.2.linked = st.linked ++ [n] := by
    rw [hspec.2.1]
  have hAobjs : ∀ o ∈ A.2.objs, o.id < A.2.nextId := hspec.2.2.1
  have hAfind : findObj A.2.objs n = some A.1 := hspec.2.2.2
  have hAdata : A.1.data = ObjData.meshData (finalSolid geo vtx hs) [] := by
    rw [hspec.1]
    rfl
  have hAid : A.1.id = n := by rw [hspec.1]
  have hmesh : meshPart st sh
      = match sh.material with
        | none => (A.2, some (.keyError "material"))
        | some mat =>
          match applyColorAttrib A.2 A.1 mat with
          | (st3, none) => (st3, none)
          | (_, some e) => (A.2, some e) := by
    simp only [meshPart, hv, hg, hvis, if_true, hc]
    rcases hho : sh.holes with _ | holes
    · have : hs = [] := by rw [hhs, hho]; rfl
      rw [hA, this]
      rfl
    · have : hs = holes := by rw [hhs, hho]; rfl
      rw [hA, this]
  rcases hm : sh.material with _ | mat
  · rw [hmesh]
    simp only [hm]
    exact ⟨hAevents, hAlinked, hAnext, ⟨A.1, [], hAfind, hAdata⟩, hAobjs⟩
  · rw [hmesh]
    simp only [hm]
    rcases hmc : meshCol mat with e | col
    · have happly : applyColorAttrib A.2 A.1 mat = (A.2, some e) := by
        simp [applyColorAttrib, hmc]
      rw [happly]
      exact ⟨hAevents, hAlinked, hAnext, ⟨A.1, [], hAfind, hAdata⟩, hAobjs⟩
    · set newObj : Object :=
        ⟨A.1.id, A.1.name, .meshData (finalSolid geo vtx hs) ([] ++ [⟨"Color", "FLOAT_COLOR", "POINT", col⟩]),
         A.1.location, A.1.rotation_euler⟩ with hnewObj
      have happly : applyColorAttrib A.2 A.1 mat
          = (⟨A.2.nextId, replaceObj A.2.objs A.1.id newObj, A.2.linked, A.2.events⟩, none) := by
        simp [applyColorAttrib, hmc, hAdata, hnewObj]
      rw [happly]
      refine ⟨hAevents, hAlinked, hAnext, ?_, ?_⟩
      · refine ⟨newObj, [⟨"Color", "FLOAT_COLOR", "POINT", col⟩], ?_, rfl⟩
        rw [hAid]
        exact findObj_replace hAfind newObj hAid
      · intro o ho
        rcases replaceObj_mem ho with ho' | rfl
        · exact hAobjs o ho'
        · simp only [hnewObj, hAid]
          rw [hAnext]
          omega

/-! ### Composition: the loop body and the loop -/

theorem processShape_of_meshPart_err {st st1 : BState} {sh : ShapeRecord} {e : PyErr}
    (h : meshPart st sh = (st1, some e)) : processShape st sh = (st1, some e) := by
  simp [processShape, h]

theorem processShape_of_meshPart_ok {st st1 : BState} {sh : ShapeRecord}
    (h : meshPart st sh = (st1, none)) : processShape st sh = labelPart st1 sh := by
  simp [processShape, h]

theorem meshPart_wf_mono (st : BState) (sh : ShapeRecord) (hwf : WF st) :
    WF (meshPart st sh).1 ∧ st.nextId ≤ (meshPart st sh).1.nextId ∧
    ∃ tail, (meshPart st sh).1.linked = st.linked ++ tail := by
  rcases hv : sh.vertexes with _ | vtx
  · rw [meshPart_novert hv]
    exact ⟨hwf, le_refl _, [], by simp⟩
  · rcases hg : sh.geometry with _ | geo
    · rw [meshPart_nogeo hv hg]
      exact ⟨hwf, le_refl _, [], by simp⟩
    · rcases hvis : geo.visible with _ | _
      · rw [meshPart_invisible hv hg hvis]
        exact ⟨hwf, le_refl _, [], by simp⟩
      · obtain ⟨hev, hlink, hnext, _, hobjs'⟩ := meshPart_visible_spec hv hg hvis hwf
        refine ⟨⟨hobjs', ?_⟩, ?_, [st.nextId], hlink⟩
        · intro i hi
          rw [hlink] at hi
          rw [hnext]
          rcases List.mem_append.mp hi with hi' | hi'
          · have := hwf.2 i hi'
            omega
          · rcases List.mem_singleton.mp hi' with rfl
            omega
        · rw [hnext]
          omega

theorem labelPart_wf_mono (st : BState) (sh : ShapeRecord) (hwf : WF st) :
    WF (labelPart st sh).1 ∧ st.nextId ≤ (labelPart st sh).1.nextId ∧
    ∃ tail, (labelPart st sh).1.linked = st.linked ++ tail := by
  rcases labelPart_trichotomy st sh with ⟨_, heq⟩ | ⟨lb, vtx, _, _, _, _, heq⟩ | ⟨_, _, heq⟩
  · rw [heq]
    exact ⟨hwf, le_refl _, [], by simp⟩
  · rw [heq]
    simp only [createLabel_eq]
    refine ⟨⟨?_, ?_⟩, by simp, [st.nextId], rfl⟩
    · intro o ho
      rcases List.mem_append.mp ho with ho' | ho'
      · exact Nat.lt_succ_of_lt (hwf.1 o ho')
      · rcases List.mem_singleton.mp ho' with rfl
        exact Nat.lt_succ_self _
    · intro i hi
      rcases List.mem_append.mp hi with hi' | hi'
      · exact Nat.lt_succ_of_lt (hwf.2 i hi')
      · rcases List.mem_singleton.mp hi' with rfl
        exact Nat.lt_succ_self _
  · rw [heq]
    exact ⟨hwf, le_refl _, [], by simp⟩

/-- Processing one record preserves state well-formedness, never lowers the
id counter, and only ever appends to the linked collection: objects linked
by earlier, already-completed shapes stay linked whatever happens. -/
theorem processShape_wf_mono (st : BState) (sh : ShapeRecord) (hwf : WF st) :
    WF (processShape st sh).1 ∧ st.nextId ≤ (processShape st sh).1.nextId ∧
    ∃ tail, (processShape st sh).1.linked = st.linked ++ tail := by
  obtain ⟨hwf1, hmono1, t1, hlink1⟩ := meshPart_wf_mono st sh hwf
  rcases hmp : meshPart st sh with ⟨st1, oe⟩
  rw [hmp] at hwf1 hmono1 hlink1
  cases oe with
  | some e =>
    rw [processShape_of_meshPart_err hmp]
    exact ⟨hwf1, hmono1, t1, hlink1⟩
  | none =>
    rw [processShape_of_meshPart_ok hmp]
    obtain ⟨hwf2, hmono2, t2, hlink2⟩ := labelPart_wf_mono st1 sh hwf1
    exact ⟨hwf2, le_trans hmono1 hmono2, t1 ++ t2,
      by rw [hlink2, hlink1, List.append_assoc]⟩

theorem initState_wf : WF initState := by
  constructor <;> intro x hx <;> simp [initState] at hx

theorem importJson_append {pre : List ShapeRecord} {st st1 : BState}
    (h : importJson pre st = (st1, none)) (l : List ShapeRecord) :
    importJson (pre ++ l) st = importJson l st1 := by
  induction pre generalizing st with
  | nil =>
    simp only [importJson] at h
    cases h
    simp
  | cons s rest ih =>
    simp only [importJson, List.cons_append] at h ⊢
    rcases hp : processShape st s with ⟨st', oe⟩
    rw [hp] at h
    cases oe with
    | none => exact ih h
    | some e =>
      have h2 : ((st', some e) : BState × Option PyErr) = (st1, none) := h
      simp at h2

theorem importJson_wf {data : List ShapeRecord} {st st1 : BState} {r : Option PyErr}
    (hwf : WF st) (h : importJson data st = (st1, r)) : WF st1 := by
  induction data generalizing st with
  | nil =>
    simp only [importJson] at h
    cases h
    exact hwf
  | cons s rest ih =>
    simp only [importJson] at h
    obtain ⟨hwf', _, _⟩ := processShape_wf_mono st s hwf
    rcases hp : processShape st s with ⟨st', oe⟩
    rw [hp] at h hwf'
    cases oe with
    | none => exact ih hwf' h
    | some e =>
      have h2 : ((st', some e) : BState × Option PyErr) = (st1, r) := h
      cases h2
      exact hwf'

/-! ### Counting created objects -/

theorem processShape_counts {st st' : BState} {sh : ShapeRecord}
    (hwf : WF st) (h : processShape st sh = (st', none)) :
    List.countP isShapeCreateEvt st'.events
        = List.countP isShapeCreateEvt st.events + (if meshCond sh then 1 else 0) ∧
    List.countP isLabelCreateEvt st'.events
        = List.countP isLabelCreateEvt st.events + (if labelCond sh then 1 else 0) := by
  rcases hmp : meshPart st sh with ⟨st1, oe⟩
  cases oe with
  | some e =>
    rw [processShape_of_meshPart_err hmp] at h
    simp at h
  | none =>
    rw [processShape_of_meshPart_ok hmp] at h
    have hcm : List.countP isShapeCreateEvt st1.events
          = List.countP isShapeCreateEvt st.events + (if meshCond sh then 1 else 0) ∧
        List.countP isLabelCreateEvt st1.events
          = List.countP isLabelCreateEvt st.events := by
      rcases hv : sh.vertexes with _ | vtx
      · rw [meshPart_novert hv] at hmp
        cases hmp
        simp [meshCond, hv]
      · rcases hg : sh.geometry with _ | geo
        · rw [meshPart_nogeo hv hg] at hmp
          simp at hmp
        · rcases hvis : geo.visible with _ | _
          · rw [meshPart_invisible hv hg hvis] at hmp
            cases hmp
            simp [meshCond, hv, hg, hvis]
          · obtain ⟨hev, _, _, _, _⟩ := meshPart_visible_spec hv hg hvis hwf
            rw [hmp] at hev
            simp only at hev
            rw [hev]
            constructor
            · simp [List.countP_append, List.countP_cons, isShapeCreateEvt,
                holeEvents_count_shape, meshCond, hv, hg, hvis]
            · simp [List.countP_append, List.countP_cons, isLabelCreateEvt,
                holeEvents_count_label]
    rcases labelPart_trichotomy st1 sh with ⟨hc, heq⟩ | ⟨lb, vtx, _, _, _, hc, heq⟩ |
        ⟨hc, hvn, heq⟩
    · rw [heq] at h
      cases h
      rw [hc]
      simpa using hcm
    · rw [heq] at h
      cases h
      rw [hc, createLabel_eq]
      constructor
      · simp only [List.countP_append]
        rw [hcm.1]
        simp [isShapeCreateEvt, List.countP_cons]
      · simp only [List.countP_append]
        rw [hcm.2]
        simp [isLabelCreateEvt, List.countP_cons]
    · rw [heq] at h
      simp at h

theorem importJson_counts {shapes : List ShapeRecord} {st st' : BState}
    (hwf : WF st) (h : importJson shapes st = (st', none)) :
    List.countP isShapeCreateEvt st'.events
        = List.countP isShapeCreateEvt st.events + List.countP meshCond shapes ∧
    List.countP isLabelCreateEvt st'.events
        = List.countP isLabelCreateEvt st.events + List.countP labelCond shapes := by
  induction shapes generalizing st with
  | nil =>
    simp only [importJson] at h
    cases h
    simp
  | cons s rest ih =>
    simp only [importJson] at h
    obtain ⟨hwf', _, _⟩ := processShape_wf_mono st s hwf
    rcases hp : processShape st s with ⟨st1, oe⟩
    rw [hp] at h hwf'
    cases oe with
    | some e =>
      have h2 : ((st1, some e) : BState × Option PyErr) = (st', none) := h
      simp at h2
    | none =>
      obtain ⟨hc1, hc2⟩ := processShape_counts hwf hp
      obtain ⟨hr1, hr2⟩ := ih hwf' h
      constructor
      · rw [hr1, hc1, List.countP_cons]
        by_cases hmc : meshCond s <;> (simp [hmc]; try omega)
      · rw [hr2, hc2, List.countP_cons]
        by_cases hlc : labelCond s <;> (simp [hlc]; try omega)

/-! ### Claims -/

/-- C5 counterexample: on the empty point sequence `getShapeOrigin` does
not fail at all — it is a total function that returns the NaN pair produced
by `(inf + -inf)/2` in both coordinates, refuting the claim that the origin
calculator fails with `InvalidGeometry` instead of returning a value
derived from the infinite initial bounds. -/
theorem c5_nan_counterexample : getShapeOrigin [] = (EFloat.nan, EFloat.nan) := rfl

/-- C5 (amended): for the empty point sequence `getShapeOrigin` raises no
error; it returns `((inf + -inf)/2, (inf + -inf)/2)`, i.e. NaN in both
components, propagating the values derived from its `inf`/`-inf` initial
bounds. -/
theorem c5_empty_returns_nan :
    getShapeOrigin []
        = ((EFloat.inf.add EFloat.ninf).div2, (EFloat.inf.add EFloat.ninf).div2) ∧
    EFloat.inf.add EFloat.ninf = EFloat.nan ∧
    EFloat.nan.div2 = EFloat.nan :=
  ⟨rfl, rfl, rfl⟩

/-- C9 (confirmed): on every non-empty point sequence `getShapeOrigin`
returns the axis-aligned bounding-box midpoint
`((min_x+max_x)/2, (min_y+max_y)/2)` (as exact finite values), and the
result is invariant under any permutation of the input sequence. -/
theorem c9_origin_midpoint_perm :
    (∀ (v : Pt) (vs : List Pt),
      getShapeOrigin (v :: vs)
        = (.fin ((vs.foldl (fun m p => min m p.x) v.x
                  + vs.foldl (fun m p => max m p.x) v.x) / 2),
           .fin ((vs.foldl (fun m p => min m p.y) v.y
                  + vs.foldl (fun m p => max m p.y) v.y) / 2))) ∧
    (∀ l₁ l₂ : List Pt, l₁.Perm l₂ → getShapeOrigin l₁ = getShapeOrigin l₂) := by
  refine ⟨getShapeOrigin_cons, ?_⟩
  intro l₁ l₂ p
  unfold getShapeOrigin
  rw [originFold_perm p]

/-- Witness for C9: a concrete swap of two points leaves the origin
unchanged. -/
theorem c9_origin_midpoint_perm_witness :
    getShapeOrigin [⟨0, 0⟩, ⟨10, 4⟩] = getShapeOrigin [⟨10, 4⟩, ⟨0, 0⟩] :=
  c9_origin_midpoint_perm.2 _ _ (by decide)

/-- C7 (confirmed): `createLabel` on a label descriptor and a non-empty
parent shape creates exactly one linked text object whose curve has the
label's text, size `fontSize/1.5` and mapped alignment, whose location is
`(-origin.x/10, origin.y/10, position.z/10 if present else 0)` with
`origin` the parent shape's bounding-box midpoint, and whose rotation is
the descriptor's degrees passed through `radians`, the z component offset
by +180 degrees (absent components are 0). -/
theorem c7_label_placement :
    ∀ (st : BState) (lb : Label) (v : Pt) (vs : List Pt),
      createLabel st lb (v :: vs)
        = ⟨st.nextId + 1,
           st.objs ++ [⟨st.nextId, "Label",
             .textData ⟨lb.text, lb.fontSize / (1.5 : ℚ), alignOf lb.align⟩,
             (.fin (-((vs.foldl (fun m p => min m p.x) v.x
                       + vs.foldl (fun m p => max m p.x) v.x) / 2) / 10),
              .fin (((vs.foldl (fun m p => min m p.y) v.y
                      + vs.foldl (fun m p => max m p.y) v.y) / 2) / 10),
              match lb.position.z with
              | some z => .fin (z / 10)
              | none => .fin 0),
             (match lb.rotation.x with | some d => radians d | none => ⟨0⟩,
              match lb.rotation.y with | some d => radians d | none => ⟨0⟩,
              match lb.rotation.z with | some d => radians (d + 180) | none => ⟨0⟩)⟩],
           st.linked ++ [st.nextId], st.events ++ [.createdLabel st.nextId]⟩ := by
  intro st lb v vs
  rw [createLabel_eq]
  unfold labelObjOf
  rw [getShapeOrigin_cons]
  rfl

/-- C8 (confirmed): `createShapeObj` maps every source point of a shape or
hole polygon through the single pure function `(x, y) ↦ (-x/10, y/10)` —
the mesh vertex list is exactly `List.map` of that function (at the shape's
z), the face is `[0, …, n-1]` in input order, and the mapping does not
depend on whether the polygon is a hole. -/
theorem c8_point_mapping :
    ∀ (st : BState) (vs : List Pt) (geo : Geometry) (isHole : Bool),
      (createShapeObj st vs geo isHole).1.data
        = ObjData.meshData
            (Solid.extruded (vs.map (fun p => ⟨-p.x / 10, p.y / 10, geo.position.z⟩))
              (List.range vs.length) 0 (if !isHole then geo.scale.z else 999)) [] := by
  intro st vs geo isHole
  simp only [createShapeObj, buildMesh_eq]

theorem meshCol_red : meshCol ⟨"#FF0000", 1⟩ = .ok [1, 0, 0, 1] := by
  have h1 : pyIntHex (pySlice "#FF0000" 1 3) = some 255 := by decide
  have h2 : pyIntHex (pySlice "#FF0000" 3 5) = some 0 := by decide
  have h3 : pyIntHex (pySlice "#FF0000" 5 7) = some 0 := by decide
  unfold meshCol
  rw [show (Material.mk "#FF0000" 1).color = "#FF0000" from rfl, h1, h2, h3]
  norm_num

/-- C6 (confirmed): for a material whose hex color slices parse (an
`#RRGGBB` string with channels `r`, `g`, `b`), `applyColorAttrib` computes
`mesh_col = [r/255, g/255, b/255, opacity]`, writes that same RGBA value to
every entry of the new FLOAT_COLOR / POINT attribute (the per-entry loop is
a constant map), and attaches the attribute to the object's mesh; in
particular `#FF0000` with opacity 1 gives `(1, 0, 0, 1)`. -/
theorem c6_vertex_color :
    ∀ (m : Material) (r g b : Nat),
      pyIntHex (pySlice m.color 1 3) = some r →
      pyIntHex (pySlice m.color 3 5) = some g →
      pyIntHex (pySlice m.color 5 7) = some b →
      meshCol m = .ok [(r : ℚ) / 255, (g : ℚ) / 255, (b : ℚ) / 255, m.opacity] ∧
      (∀ (entries : List (List ℚ)) (e : List ℚ),
        e ∈ colorLoop entries [(r : ℚ) / 255, (g : ℚ) / 255, (b : ℚ) / 255, m.opacity] →
        e = [(r : ℚ) / 255, (g : ℚ) / 255, (b : ℚ) / 255, m.opacity]) ∧
      (∀ (st : BState) (obj : Object) (s : Solid) (cs : List ColorAttr),
        obj.data = ObjData.meshData s cs →
        applyColorAttrib st obj m
          = (⟨st.nextId,
              replaceObj st.objs obj.id
                ⟨obj.id, obj.name,
                 ObjData.meshData s (cs ++ [⟨"Color", "FLOAT_COLOR", "POINT",
                   [(r : ℚ) / 255, (g : ℚ) / 255, (b : ℚ) / 255, m.opacity]⟩]),
                 obj.location, obj.rotation_euler⟩,
              st.linked, st.events⟩, none)) ∧
      meshCol ⟨"#FF0000", 1⟩ = .ok [1, 0, 0, 1] := by
  intro m r g b hr hg hb
  have hmc : meshCol m = .ok [(r : ℚ) / 255, (g : ℚ) / 255, (b : ℚ) / 255, m.opacity] := by
    unfold meshCol
    rw [hr, hg, hb]
  refine ⟨hmc, ?_, ?_, meshCol_red⟩
  · intro entries e he
    simp only [colorLoop, List.mem_map] at he
    obtain ⟨_, _, heq⟩ := he
    exact heq.symm
  · intro st obj s cs hdata
    simp [applyColorAttrib, hmc, hdata]

/-- Witness for C6: the red material parses to channels (255, 0, 0) and its
uniform vertex color is exactly (1, 0, 0, 1). -/
theorem c6_vertex_color_witness :
    meshCol ⟨"#FF0000", 1⟩
        = .ok [(255 : ℚ) / 255, (0 : ℚ) / 255, (0 : ℚ) / 255, (⟨"#FF0000", 1⟩ : Material).opacity] :=
  (c6_vertex_color ⟨"#FF0000", 1⟩ 255 0 0 (by decide) (by decide) (by decide)).1

/-- C2 (confirmed): per record and over a whole (error-free) run from a
fresh scene, `importJson` creates a shape mesh object exactly when the
record has a `vertexes` key and its `geometry.visible` is true, and a label
object exactly when it has a `label` key whose `visible` is present and
true — a label without a `visible` key contributes nothing, like
`visible = false` (hole solids are tagged separately and not counted as
shape meshes). -/
theorem c2_field_presence_rules :
    (∀ (st st1 : BState) (sh : ShapeRecord), WF st → processShape st sh = (st1, none) →
      List.countP isShapeCreateEvt st1.events
          = List.countP isShapeCreateEvt st.events + (if meshCond sh then 1 else 0) ∧
      List.countP isLabelCreateEvt st1.events
          = List.countP isLabelCreateEvt st.events + (if labelCond sh then 1 else 0)) ∧
    (∀ (shapes : List ShapeRecord) (st' : BState),
      importJson shapes initState = (st', none) →
      List.countP isShapeCreateEvt st'.events = List.countP meshCond shapes ∧
      List.countP isLabelCreateEvt st'.events = List.countP labelCond shapes) := by
  constructor
  · intro st st1 sh hwf h
    exact processShape_counts hwf h
  · intro shapes st' h
    have := importJson_counts initState_wf h
    simpa [initState] using this

def c2geo : Geometry := ⟨⟨0, 0, 0⟩, ⟨1, 1, 5⟩, true⟩

def c2geoInvisible : Geometry := ⟨⟨0, 0, 0⟩, ⟨1, 1, 5⟩, false⟩

def c2labelVisible : Label := ⟨"hi", 3, "left", ⟨none, none, some 20⟩, ⟨none, none, some 90⟩, some true⟩

def c2labelNoVis : Label := ⟨"hi", 3, "left", ⟨none, none, none⟩, ⟨none, none, none⟩, none⟩

def c2shapes : List ShapeRecord :=
  [⟨some [⟨0, 0⟩, ⟨10, 0⟩, ⟨10, 10⟩], some c2geo, none, some ⟨"#FF0000", 1⟩, some c2labelVisible⟩,
   ⟨some [⟨0, 0⟩, ⟨10, 0⟩, ⟨10, 10⟩], some c2geoInvisible, none, some ⟨"#FF0000", 1⟩, none⟩,
   ⟨some [⟨0, 0⟩, ⟨10, 0⟩, ⟨10, 10⟩], some c2geo, none, some ⟨"#FF0000", 1⟩, some c2labelNoVis⟩]

/-- Witness for C2: a visible labelled shape, an invisible shape and a
shape whose label lacks `visible` yield exactly the predicted counts. -/
theorem c2_field_presence_rules_witness :
    List.countP isShapeCreateEvt (importJson c2shapes initState).1.events
        = List.countP meshCond c2shapes ∧
    List.countP isLabelCreateEvt (importJson c2shapes initState).1.events
        = List.countP labelCond c2shapes :=
  c2_field_presence_rules.2 c2shapes (importJson c2shapes initState).1
    (by
      have h2 : (importJson c2shapes initState).2 = none := by decide
      rw [← h2])

/-- C10 (confirmed): a record whose label is present and visible but that
has no `vertexes` key makes `importJson` raise `KeyError('vertexes')` while
preparing the `createLabel` call, aborting the whole import: whatever
records follow, the run stops there with the state the prefix produced (no
label object is created for the offending record). -/
theorem c10_label_keyerror :
    ∀ (pre : List ShapeRecord) (s : ShapeRecord) (lb : Label) (rest : List ShapeRecord)
      (st1 : BState),
      importJson pre initState = (st1, none) →
      s.label = some lb → lb.visible = some true → s.vertexes = none →
      importJson (pre ++ s :: rest) initState = (st1, some (.keyError "vertexes")) := by
  intro pre s lb rest st1 hpre hsl hv hvt
  rw [importJson_append hpre]
  have hmp : meshPart st1 s = (st1, none) := meshPart_novert hvt
  have hps : processShape st1 s = (st1, some (.keyError "vertexes")) := by
    rw [processShape_of_meshPart_ok hmp]
    simp [labelPart, hsl, hv, hvt]
  simp [importJson, hps]

def c10label : Label := ⟨"lost", 2, "center", ⟨none, none, none⟩, ⟨none, none, none⟩, some true⟩

def c10shape : ShapeRecord := ⟨none, none, none, none, some c10label⟩

def c10good : ShapeRecord :=
  ⟨some [⟨0, 0⟩, ⟨10, 0⟩, ⟨10, 10⟩], some ⟨⟨0, 0, 0⟩, ⟨1, 1, 5⟩, true⟩, none,
   some ⟨"#FF0000", 1⟩, none⟩

/-- Witness for C10: with the offending record first, the import aborts
immediately and the following (perfectly valid) record is never reached. -/
theorem c10_label_keyerror_witness :
    importJson ([] ++ c10shape :: [c10good]) initState
      = (initState, some (.keyError "vertexes")) :=
  c10_label_keyerror [] c10shape c10label [c10good] initState rfl rfl rfl rfl

def c4geo : Geometry := ⟨⟨0, 0, 0⟩, ⟨1, 1, 5⟩, true⟩

def c4shape : ShapeRecord :=
  ⟨some [⟨0, 0⟩, ⟨1, 0⟩], some c4geo, none, some ⟨"#FF0000", 1⟩, none⟩

/-- C4 counterexample: a 2-point vertex sequence is not rejected — the
record is processed without any error and a (degenerate) mesh object is
created and linked, refuting the claim that shape construction fails with
`InvalidGeometry` and the shape is skipped. -/
theorem c4_degenerate_counterexample :
    (processShape initState c4shape).2 = none ∧
    List.countP isShapeCreateEvt (processShape initState c4shape).1.events = 1 := by
  decide

/-- C4 (amended): `createShapeObj` performs no vertex-count validation: on
fewer than 3 points it silently succeeds, emitting a mesh whose single face
has fewer than 3 vertices (a zero-area degenerate), and links the object
into the collection; no `InvalidGeometry` failure exists in the code. -/
theorem c4_no_arity_check :
    ∀ (st : BState) (vs : List Pt) (geo : Geometry) (isHole : Bool),
      vs.length < 3 →
      (createShapeObj st vs geo isHole).1.data
          = ObjData.meshData
              (Solid.extruded (vs.map (fun p => ⟨-p.x / 10, p.y / 10, geo.position.z⟩))
                (List.range vs.length) 0 (if !isHole then geo.scale.z else 999)) [] ∧
      (List.range vs.length).length < 3 ∧
      (createShapeObj st vs geo isHole).2.linked = st.linked ++ [st.nextId] := by
  intro st vs geo isHole hlen
  refine ⟨?_, by simpa using hlen, rfl⟩
  simp only [createShapeObj, buildMesh_eq]

/-- Witness for C4: the degenerate 2-point shape is still linked into the
collection. -/
theorem c4_no_arity_check_witness :
    (createShapeObj initState [⟨0, 0⟩, ⟨1, 0⟩] c4geo false).2.linked
      = initState.linked ++ [initState.nextId] :=
  (c4_no_arity_check initState [⟨0, 0⟩, ⟨1, 0⟩] c4geo false (by decide)).2.2

def c1geo : Geometry := ⟨⟨0, 0, 0⟩, ⟨1, 1, 5⟩, true⟩

def c1bad : ShapeRecord :=
  ⟨some [⟨0, 0⟩, ⟨10, 0⟩, ⟨10, 10⟩], some c1geo, none, none, none⟩

def c1good : ShapeRecord :=
  ⟨some [⟨0, 0⟩, ⟨10, 0⟩, ⟨10, 10⟩], some c1geo, none, some ⟨"#00FF00", 1⟩, none⟩

/-- C1 counterexample: the first record has a visible shape but no
`material` key, so its mesh is created and then `KeyError('material')`
escapes; the second, perfectly valid record — which alone yields one mesh —
is never processed: the run ends with the error and only the first record's
mesh was created.  This refutes the claim that a per-shape error does not
abort processing of subsequent shapes. -/
theorem c1_abort_counterexample :
    (importJson [c1bad, c1good] initState).2 = some (PyErr.keyError "material") ∧
    List.countP isShapeCreateEvt (importJson [c1bad, c1good] initState).1.events = 1 ∧
    List.countP isShapeCreateEvt (importJson [c1good] initState).1.events = 1 := by
  decide

/-- C1 (amended): an error raised while processing one shape aborts the
entire import — `importJson` stops at the erroring record, the exception
propagates, and no subsequent record is processed; already-completed
shapes are left intact: every object id linked before the erroring record
is still linked in the final state. -/
theorem c1_error_aborts_import :
    ∀ (pre : List ShapeRecord) (s : ShapeRecord) (rest : List ShapeRecord)
      (st1 st2 : BState) (e : PyErr),
      importJson pre initState = (st1, none) →
      processShape st1 s = (st2, some e) →
      importJson (pre ++ s :: rest) initState = (st2, some e) ∧
      ∀ i ∈ st1.linked, i ∈ st2.linked := by
  intro pre s rest st1 st2 e hpre hs
  constructor
  · rw [importJson_append hpre]
    simp [importJson, hs]
  · have hwf1 : WF st1 := importJson_wf initState_wf hpre
    obtain ⟨_, _, tail, hlink⟩ := processShape_wf_mono st1 s hwf1
    intro i hi
    have h2 : (processShape st1 s).1.linked = st2.linked := by rw [hs]
    rw [← h2, hlink]
    exact List.mem_append_left _ hi

/-- Witness for C1: the failing two-record array stops at the first
record's `KeyError('material')` no matter what follows. -/
theorem c1_error_aborts_import_witness :
    importJson ([] ++ c1bad :: [c1good]) initState
      = ((processShape initState c1bad).1, some (PyErr.keyError "material")) :=
  (c1_error_aborts_import [] c1bad [c1good] initState (processShape initState c1bad).1
    (PyErr.keyError "material") rfl
    (by
      have h2 : (processShape initState c1bad).2 = some (PyErr.keyError "material") := by
        decide
      rw [← h2])).1

/-- C3 (confirmed): for a visible shape whose `holes` key holds `N` hole
polygons, the run creates exactly `N` hole solids and deletes exactly `N`
(the per-shape event block is `createdMesh`, then for each hole in input
order a hole-solid creation followed immediately by its deletion, and
nothing after the block creates or deletes hole solids); no hole-solid id
remains linked in the scene afterwards; and the shape object's final mesh
is the left-nested boolean difference of its solid with the hole solids in
input order — each subtraction acting on the progressively-modified
solid. -/
theorem c3_hole_bookkeeping :
    ∀ (st : BState) (sh : ShapeRecord) (vtx : List Pt) (geo : Geometry) (hs : List (List Pt)),
      sh.vertexes = some vtx → sh.geometry = some geo → geo.visible = true →
      sh.holes = some hs → WF st →
      List.countP isHoleCreateEvt (holeEvents (st.nextId + 1) hs) = hs.length ∧
      List.countP isDeleteEvt (holeEvents (st.nextId + 1) hs) = hs.length ∧
      (∃ tail,
        (processShape st sh).1.events
            = st.events ++ Event.createdMesh st.nextId false ::
                (holeEvents (st.nextId + 1) hs ++ tail) ∧
        (∀ e ∈ tail, isHoleCreateEvt e = false ∧ isDeleteEvt e = false)) ∧
      (∀ k, st.nextId + 1 ≤ k → k < st.nextId + 1 + hs.length →
        k ∉ (processShape st sh).1.linked) ∧
      (∃ obj cs, findObj (processShape st sh).1.objs st.nextId = some obj ∧
        obj.data = ObjData.meshData
          (hs.foldl (fun a h => Solid.difference a (holeSolidOf geo h))
            (shapeSolidOf geo vtx)) cs) := by
  intro st sh vtx geo hs hv hg hvis hh hwf
  have hgd : sh.holes.getD [] = hs := by rw [hh]; rfl
  obtain ⟨hev, hlink, hnext, hfindE, hobjs⟩ := meshPart_visible_spec hv hg hvis hwf
  rw [hgd] at hev hnext hfindE
  set M := (meshPart st sh).1 with hM
  have hfold : finalSolid geo vtx hs
      = hs.foldl (fun a h => Solid.difference a (holeSolidOf geo h)) (shapeSolidOf geo vtx) := rfl
  have core :
      (∃ tail, M.events = st.events ++ Event.createdMesh st.nextId false ::
          (holeEvents (st.nextId + 1) hs ++ tail) ∧
        (∀ e ∈ tail, isHoleCreateEvt e = false ∧ isDeleteEvt e = false)) ∧
      (∀ k, st.nextId + 1 ≤ k → k < st.nextId + 1 + hs.length → k ∉ M.linked) ∧
      (∃ obj cs, findObj M.objs st.nextId = some obj ∧
        obj.data = ObjData.meshData
          (hs.foldl (fun a h => Solid.difference a (holeSolidOf geo h))
            (shapeSolidOf geo vtx)) cs) := by
    refine ⟨⟨[], by simpa using hev, by simp⟩, ?_, ?_⟩
    · intro k hk1 hk2 hmem
      rw [hlink] at hmem
      rcases List.mem_append.mp hmem with hm | hm
      · have := hwf.2 k hm
        omega
      · rcases List.mem_singleton.mp hm with rfl
        omega
    · obtain ⟨obj, cs, hfind, hdata⟩ := hfindE
      exact ⟨obj, cs, hfind, by rw [hdata, hfold]⟩
  rcases hoe : (meshPart st sh).2 with _ | e
  · have hmp2 : meshPart st sh = (M, none) := by rw [hM, ← hoe]
    have hps : processShape st sh = labelPart M sh := processShape_of_meshPart_ok hmp2
    rcases labelPart_trichotomy M sh with ⟨_, heq⟩ | ⟨lb, vtx2, _, _, _, _, heq⟩ | ⟨_, _, heq⟩
    · rw [hps, heq]
      exact ⟨holeEvents_count_hole hs _, holeEvents_count_delete hs _, core⟩
    · rw [hps, heq]
      simp only [createLabel_eq]
      obtain ⟨⟨tail0, hev0, _⟩, hnotin, obj, cs, hfind, hdata⟩ := core
      refine ⟨holeEvents_count_hole hs _, holeEvents_count_delete hs _,
        ⟨[Event.createdLabel M.nextId], ?_, ?_⟩, ?_, ?_⟩
      · have : M.events = st.events ++ Event.createdMesh st.nextId false ::
            holeEvents (st.nextId + 1) hs := by simpa using hev
        rw [this]
        simp
      · intro e he
        rcases List.mem_singleton.mp he with rfl
        exact ⟨rfl, rfl⟩
      · intro k hk1 hk2 hmem
        rcases List.mem_append.mp hmem with hm | hm
        · exact hnotin k hk1 hk2 hm
        · rcases List.mem_singleton.mp hm with rfl
          rw [hnext] at hk2
          omega
      · exact ⟨obj, cs, findObj_append_left hfind _, hdata⟩
    · rw [hps, heq]
      exact ⟨holeEvents_count_hole hs _, holeEvents_count_delete hs _, core⟩
  · have hmp2 : meshPart st sh = (M, some e) := by rw [hM, ← hoe]
    have hps : processShape st sh = (M, some e) := processShape_of_meshPart_err hmp2
    rw [hps]
    exact ⟨holeEvents_count_hole hs _, holeEvents_count_delete hs _, core⟩

def c3geo : Geometry := ⟨⟨0, 0, 0⟩, ⟨1, 1, 5⟩, true⟩

def c3holes : List (List Pt) := [[⟨2, 2⟩, ⟨8, 2⟩, ⟨8, 8⟩], [⟨3, 3⟩, ⟨4, 3⟩, ⟨4, 4⟩]]

def c3vtx : List Pt := [⟨0, 0⟩, ⟨10, 0⟩, ⟨10, 10⟩, ⟨0, 10⟩]

def c3shape : ShapeRecord := ⟨some c3vtx, some c3geo, some c3holes, some ⟨"#FF0000", 1⟩, none⟩

/-- Witness for C3: a square with two triangular holes creates and deletes
exactly two hole solids and no hole-solid id stays linked. -/
theorem c3_hole_bookkeeping_witness :
    List.countP isHoleCreateEvt (holeEvents (initState.nextId + 1) c3holes) = c3holes.length ∧
    List.countP isDeleteEvt (holeEvents (initState.nextId + 1) c3holes) = c3holes.length ∧
    (∀ k, initState.nextId + 1 ≤ k → k < initState.nextId + 1 + c3holes.length →
      k ∉ (processShape initState c3shape).1.linked) :=
  ⟨(c3_hole_bookkeeping initState c3shape c3vtx c3geo c3holes rfl rfl rfl rfl initState_wf).1,
   (c3_hole_bookkeeping initState c3shape c3vtx c3geo c3holes rfl rfl rfl rfl initState_wf).2.1,
   (c3_hole_bookkeeping initState c3shape c3vtx c3geo c3holes rfl rfl rfl rfl initState_wf).2.2.2.1⟩
